import Mathlib

/-!
Shallow embedding of `src/caiquan.py`, a commit-reveal rock-paper-scissors
implementation, together with theorems settling the specification claims.

Modelling conventions:
- Python `bytes` values are `List Nat` (one `Nat` per byte).
- SHA-256 is kept abstract: every definition that hashes takes a hash
  function `H : Bytes → Bytes` as an explicit parameter; `Player._hash`
  builds the hashed input `struct.pack('B', move.value) + salt` exactly as
  the source does (one byte for the move code, then the salt bytes) and
  applies `H` to it.
- `secrets.token_bytes(SALT_LENGTH)` is nondeterministic, so the salt a
  `commit` generates is passed in as an explicit parameter; theorems
  quantify over all salts.
- Python exceptions become `Except String`; `ValueError("尚未进行承诺阶段")`
  raised by `Player.reveal` is `Except.error "尚未进行承诺阶段"`.
-/

/-- Byte strings, one `Nat` per byte. -/
abbrev Bytes := List Nat

/-- The `Move` IntEnum of `caiquan.py` (ROCK = 0, SCISSORS = 1, PAPER = 2). -/
inductive Move where
  | ROCK
  | SCISSORS
  | PAPER
deriving DecidableEq, Repr, Fintype

/-- Integer code of a move, the `.value` of the Python IntEnum. -/
def Move.value : Move → Nat
  | .ROCK => 0
  | .SCISSORS => 1
  | .PAPER => 2

/-- The `winning_combinations` set literal inside `Move.beats`
(`{(ROCK, SCISSORS), (SCISSORS, PAPER), (PAPER, ROCK)}`). -/
def winning_combinations : List (Move × Move) :=
  [(Move.ROCK, Move.SCISSORS), (Move.SCISSORS, Move.PAPER), (Move.PAPER, Move.ROCK)]

/-- `Move.beats` from `caiquan.py` lines 34-47: `None` on a tie, otherwise
membership of `(self, other)` in `winning_combinations`. -/
def Move.beats (self other : Move) : Option Bool :=
  if self = other then none
  else some (decide ((self, other) ∈ winning_combinations))

/-- C1: the claim states that `Move.beats x y` returns True exactly when
`(x.value - y.value) mod 3 == 1`. This is false at the concrete pair
(ROCK, SCISSORS): the code returns True there, yet (0 - 1) mod 3 = 2 ≠ 1. -/
theorem beats_offset_one_cex :
    ¬ (Move.beats Move.ROCK Move.SCISSORS = some true ↔
       ((Move.value Move.ROCK : Int) - (Move.value Move.SCISSORS : Int)) % 3 = 1) := by
  decide

/-- C1 (amended): `Move.beats x y` returns True exactly when
`(x.value - y.value) mod 3 == 2`, equivalently `(y.value - x.value) mod 3 == 1` —
the code fixes the opposite winning-offset convention from the one the claim
quotes. -/
theorem beats_offset_two :
    ∀ x y : Move,
      Move.beats x y = some true ↔
        ((Move.value x : Int) - (Move.value y : Int)) % 3 = 2 := by
  decide

/-- C2: the outcome relation is the total cyclic tournament: Rock beats
Scissors, Scissors beats Paper, Paper beats Rock, every move draws against
itself, and for every pair of distinct moves exactly one of the two beats the
other. -/
theorem beats_total_cyclic_tournament :
    Move.beats Move.ROCK Move.SCISSORS = some true ∧
    Move.beats Move.SCISSORS Move.PAPER = some true ∧
    Move.beats Move.PAPER Move.ROCK = some true ∧
    (∀ x : Move, Move.beats x x = none) ∧
    (∀ x y : Move,
      x = y ∨
      (Move.beats x y = some true ∧ Move.beats y x = some false) ∨
      (Move.beats x y = some false ∧ Move.beats y x = some true)) := by
  refine ⟨by decide, by decide, by decide, by decide, by decide⟩

/-- The `Commitment` dataclass: the digest bytes `c = H(m || r)`. -/
structure Commitment where
  hash_value : Bytes
deriving DecidableEq, Repr

/-- The `Reveal` dataclass: the disclosed `(m, r)` pair. -/
structure Reveal where
  move : Move
  salt : Bytes
deriving DecidableEq, Repr

/-- The mutable fields of the `Player` class: name, own move, own salt, own
commitment, and the opponent's received commitment (all four optional fields
start as `None` in `__init__`). -/
structure Player where
  name : String
  _move : Option Move
  _salt : Option Bytes
  _commitment : Option Commitment
  _opponent_commitment : Option Commitment
deriving DecidableEq, Repr

/-- `Player.SALT_LENGTH = 16` (bytes). -/
def Player.SALT_LENGTH : Nat := 16

/-- `Player.__init__(name)`: all per-round fields start out absent. -/
def Player.init (name : String) : Player :=
  { name := name, _move := none, _salt := none, _commitment := none,
    _opponent_commitment := none }

/-- `Player._hash(move, salt)`: packs `move.value` as one byte, concatenates
the salt, and hashes; the SHA-256 digest function is the abstract parameter
`H`. -/
def Player._hash (H : Bytes → Bytes) (move : Move) (salt : Bytes) : Bytes :=
  H (move.value :: salt)

/-- `Player.commit(move)`: unconditionally stores the move, the freshly
generated salt (passed in here, modelling `secrets.token_bytes(SALT_LENGTH)`),
and the commitment `H(m || r)`, and returns that commitment. The source
performs no already-committed check before overwriting the fields. -/
def Player.commit (self : Player) (H : Bytes → Bytes) (move : Move)
    (salt : Bytes) : Player × Commitment :=
  let hash_value := Player._hash H move salt
  ({ self with
      _move := some move,
      _salt := some salt,
      _commitment := some ⟨hash_value⟩ },
   ⟨hash_value⟩)

/-- `Player.receive_commitment(commitment)`: stores the opponent's
commitment. -/
def Player.receive_commitment (self : Player) (commitment : Commitment) :
    Player :=
  { self with _opponent_commitment := some commitment }

/-- `Player.reveal()`: raises `ValueError("尚未进行承诺阶段")` when the stored
move or salt is absent, otherwise returns the stored `(m, r)` pair. -/
def Player.reveal (self : Player) : Except String Reveal :=
  match self._move, self._salt with
  | some m, some s => Except.ok ⟨m, s⟩
  | _, _ => Except.error "尚未进行承诺阶段"

/-- `Player.verify(reveal, expected_commitment)`: recomputes `H(m || r)` from
the reveal and compares it with the expected commitment's digest. -/
def Player.verify (self : Player) (H : Bytes → Bytes) (reveal : Reveal)
    (expected_commitment : Commitment) : Bool :=
  decide (Player._hash H reveal.move reveal.salt =
          expected_commitment.hash_value)

/-- An identity "hash" over byte strings, used to instantiate the abstract
digest function in concrete witnesses (it is injective, so it satisfies the
no-collision hypotheses). -/
def idHash : Bytes → Bytes := fun b => b

/-- A concrete 16-byte salt (all zeros). -/
def salt16a : Bytes := List.replicate 16 0

/-- A second concrete 16-byte salt (all ones), distinct from `salt16a`. -/
def salt16b : Bytes := List.replicate 16 1

/-- Verifying a reveal against the commitment computed from the same
`(move, salt)` pair always succeeds, whatever the digest function. -/
theorem verify_hash_self (H : Bytes → Bytes) (p : Player) (m : Move)
    (r : Bytes) : Player.verify p H ⟨m, r⟩ ⟨Player._hash H m r⟩ = true := by
  simp [Player.verify]

/-- The move code is an injective encoding of the three moves. -/
theorem Move.value_injective : ∀ m1 m2 : Move,
    Move.value m1 = Move.value m2 → m1 = m2 := by
  decide

/-- C5: completeness of commit/verify — for every move `m` and every salt `r`
of the fixed salt length, `verify` accepts `(m, r)` against the commitment
`H(encode(m) || r)` computed for that same pair. -/
theorem verify_complete (H : Bytes → Bytes) (p : Player) (m : Move) (r : Bytes)
    (hr : r.length = Player.SALT_LENGTH) :
    Player.verify p H ⟨m, r⟩ ⟨Player._hash H m r⟩ = true := by
  exact verify_hash_self H p m r

/-- Witness for C5 at a concrete 16-byte salt and a concrete hash function. -/
theorem verify_complete_witness :
    salt16a.length = Player.SALT_LENGTH ∧
    Player.verify (Player.init "Bob") idHash ⟨Move.ROCK, salt16a⟩
      ⟨Player._hash idHash Move.ROCK salt16a⟩ = true :=
  ⟨by decide, verify_complete idHash (Player.init "Bob") Move.ROCK salt16a (by decide)⟩

/-- C6: binding — whenever `m1 ≠ m2` and the digest function is injective on
the encoded inputs (no collision), `verify` rejects `(m2, r)` against the
commitment generated for `(m1, r)`. -/
theorem verify_binding (H : Bytes → Bytes) (p : Player) (m1 m2 : Move)
    (r : Bytes) (hm : m1 ≠ m2) (hinj : Function.Injective H) :
    Player.verify p H ⟨m2, r⟩ ⟨Player._hash H m1 r⟩ = false := by
  apply decide_eq_false
  intro hEq
  apply hm
  have hcons : Move.value m2 :: r = Move.value m1 :: r := hinj hEq
  exact (Move.value_injective m1 m2 (List.cons.injEq _ _ _ _ ▸ hcons).1.symm).symm ▸ rfl

/-- Witness for C6: the identity hash is injective, ROCK ≠ SCISSORS, and
verification of (SCISSORS, r) against the commitment for (ROCK, r) fails. -/
theorem verify_binding_witness :
    Move.ROCK ≠ Move.SCISSORS ∧
    Function.Injective idHash ∧
    Player.verify (Player.init "Alice") idHash ⟨Move.SCISSORS, salt16a⟩
      ⟨Player._hash idHash Move.ROCK salt16a⟩ = false :=
  ⟨by decide, fun _ _ h => h,
   verify_binding idHash (Player.init "Alice") Move.ROCK Move.SCISSORS salt16a
     (by decide) (fun _ _ h => h)⟩


/-- Result of one round of `Game.play`: the returned value (`some name` for a
winner, `none` for a draw) plus a flag recording whether stage (d) — the call
`self.bob.reveal()` at line 185 of the source — was reached. The flag makes
the short-circuit on a failed verification of Alice's reveal observable in
the embedding. -/
structure RoundOutcome where
  result : Option String
  bob_revealed : Bool
deriving DecidableEq, Repr

/-- Stages (c)-(e) of `Game.play` (source lines 174-208), starting from the
value `alice_reveal` returned by `self.alice.reveal()`: Bob verifies Alice's
reveal against her commitment; on failure the round returns Bob's name at
once (Bob's reveal never runs, `bob_revealed = false`); otherwise Bob
reveals, Alice verifies, and on success the verdict is adjudicated by
`Move.beats`. -/
def Game.finishRound (H : Bytes → Bytes) (alice bob : Player)
    (alice_reveal : Reveal) (alice_commitment bob_commitment : Commitment) :
    Except String RoundOutcome :=
  let alice_valid := Player.verify bob H alice_reveal alice_commitment
  if alice_valid then
    match Player.reveal bob with
    | Except.error e => Except.error e
    | Except.ok bob_reveal =>
      let bob_valid := Player.verify alice H bob_reveal bob_commitment
      if bob_valid then
        match Move.beats alice_reveal.move bob_reveal.move with
        | none => Except.ok ⟨none, true⟩
        | some true => Except.ok ⟨some alice.name, true⟩
        | some false => Except.ok ⟨some bob.name, true⟩
      else Except.ok ⟨some alice.name, true⟩
  else Except.ok ⟨some bob.name, false⟩

/-- `Game.play(alice_move, bob_move)` (source lines 152-208): both players are
freshly constructed (as in `Game.__init__`), Alice commits with salt `salt_a`
and hands the commitment to Bob, Bob commits with salt `salt_b` and hands his
commitment to Alice, then the reveal/verify/adjudicate stages of
`Game.finishRound` run. The two salts stand for the values
`secrets.token_bytes(SALT_LENGTH)` drew during the two commits. -/
def Game.play (H : Bytes → Bytes) (alice_name bob_name : String)
    (alice_move bob_move : Move) (salt_a salt_b : Bytes) :
    Except String RoundOutcome :=
  let alice := Player.init alice_name
  let bob := Player.init bob_name
  let ac := Player.commit alice H alice_move salt_a
  let alice := ac.1
  let alice_commitment := ac.2
  let bob := Player.receive_commitment bob alice_commitment
  let bc := Player.commit bob H bob_move salt_b
  let bob := bc.1
  let bob_commitment := bc.2
  let alice := Player.receive_commitment alice bob_commitment
  match Player.reveal alice with
  | Except.error e => Except.error e
  | Except.ok alice_reveal =>
    Game.finishRound H alice bob alice_reveal alice_commitment bob_commitment

/-- An honestly played round never forfeits: both verifications succeed for
every hash function and every pair of salts, Bob's reveal stage is reached,
and the result is the verdict `Move.beats` assigns to the two committed
moves. -/
theorem play_honest (H : Bytes → Bytes) (alice_name bob_name : String)
    (a b : Move) (salt_a salt_b : Bytes) :
    Game.play H alice_name bob_name a b salt_a salt_b =
      Except.ok ⟨(match Move.beats a b with
                  | none => none
                  | some true => some alice_name
                  | some false => some bob_name), true⟩ := by
  cases a <;> cases b <;>
    simp [Game.play, Game.finishRound, Player.init, Player.commit,
          Player.receive_commitment, Player.reveal, Player.verify,
          Player._hash, Move.beats, winning_combinations]

/-- C3: end-to-end honest rounds, for every hash function and every pair of
salts drawn during the two commits: Rock vs Scissors returns Alice's name,
Paper vs Paper returns the draw value, Scissors vs Rock returns Bob's name. -/
theorem play_endtoend_scenarios (H : Bytes → Bytes) (salt_a salt_b : Bytes) :
    Game.play H "Alice" "Bob" Move.ROCK Move.SCISSORS salt_a salt_b =
      Except.ok ⟨some "Alice", true⟩ ∧
    Game.play H "Alice" "Bob" Move.PAPER Move.PAPER salt_a salt_b =
      Except.ok ⟨none, true⟩ ∧
    Game.play H "Alice" "Bob" Move.SCISSORS Move.ROCK salt_a salt_b =
      Except.ok ⟨some "Bob", true⟩ :=
  ⟨play_honest H "Alice" "Bob" Move.ROCK Move.SCISSORS salt_a salt_b,
   play_honest H "Alice" "Bob" Move.PAPER Move.PAPER salt_a salt_b,
   play_honest H "Alice" "Bob" Move.SCISSORS Move.ROCK salt_a salt_b⟩

/-- C4: the claim states a second `commit` on an already-committed player
raises rather than succeeding and replacing the stored triple. In the code
there is no such check: at this concrete input the second call succeeds and
the resulting state holds the second (move, salt, commitment) triple, with
the first triple gone. -/
theorem commit_twice_cex :
    (Player.commit ((Player.commit (Player.init "Alice") idHash Move.ROCK
        salt16a).1) idHash Move.SCISSORS salt16b).1 =
      { name := "Alice", _move := some Move.SCISSORS, _salt := some salt16b,
        _commitment := some ⟨Move.SCISSORS.value :: salt16b⟩,
        _opponent_commitment := none } := by
  rfl

/-- C4 (amended): `Player.commit` performs no already-committed check — a
second call in the same round succeeds and replaces the stored
(move, salt, commitment) triple: committing twice leaves exactly the state
(and returns exactly the commitment) of the second commit alone. -/
theorem commit_second_call_replaces (H : Bytes → Bytes) (p : Player)
    (m1 m2 : Move) (s1 s2 : Bytes) :
    Player.commit ((Player.commit p H m1 s1).1) H m2 s2 =
      Player.commit p H m2 s2 :=
  rfl

/-- C7: whenever Bob's verification of Alice's reveal against her prior
commitment returns false, `Game.finishRound` returns Bob's name with
`bob_revealed = false` — Alice forfeits and Bob's reveal stage never runs. -/
theorem forfeit_short_circuit (H : Bytes → Bytes) (alice bob : Player)
    (alice_reveal : Reveal) (alice_commitment bob_commitment : Commitment)
    (h : Player.verify bob H alice_reveal alice_commitment = false) :
    Game.finishRound H alice bob alice_reveal alice_commitment bob_commitment =
      Except.ok ⟨some bob.name, false⟩ := by
  unfold Game.finishRound
  rw [h]
  simp

/-- Witness for C7: Alice committed ROCK but reveals SCISSORS with the same
salt; under the injective identity hash the verification fails and the round
short-circuits to Bob with Bob's reveal stage unreached. -/
theorem forfeit_short_circuit_witness :
    Player.verify (Player.init "Bob") idHash ⟨Move.SCISSORS, salt16a⟩
      ⟨Player._hash idHash Move.ROCK salt16a⟩ = false ∧
    Game.finishRound idHash (Player.init "Alice") (Player.init "Bob")
      ⟨Move.SCISSORS, salt16a⟩ ⟨Player._hash idHash Move.ROCK salt16a⟩ ⟨[]⟩ =
      Except.ok ⟨some "Bob", false⟩ :=
  ⟨by decide,
   forfeit_short_circuit idHash (Player.init "Alice") (Player.init "Bob")
     ⟨Move.SCISSORS, salt16a⟩ ⟨Player._hash idHash Move.ROCK salt16a⟩ ⟨[]⟩
     (by decide)⟩

/-- C8: the claim states `Player.reveal` fails whenever the opponent's
commitment has not been received. At this concrete input the player has
committed but received nothing, and `reveal` nevertheless succeeds with the
stored (move, salt) pair. -/
theorem reveal_without_receipt_cex :
    (((Player.init "Alice").commit idHash Move.ROCK
        salt16a).1)._opponent_commitment = none ∧
    Player.reveal (((Player.init "Alice").commit idHash Move.ROCK
        salt16a).1) = Except.ok ⟨Move.ROCK, salt16a⟩ :=
  ⟨rfl, rfl⟩

/-- C8 (amended): `Player.reveal` checks only the player's own commit state —
it fails exactly when the stored move or salt is absent, and it ignores the
opponent-commitment field entirely (the receive-before-reveal ordering is
enforced by `Game.play`'s fixed call sequence, not by `Player.reveal`). -/
theorem reveal_checks_own_state_only :
    (∀ p : Player,
      Player.reveal p = Except.error "尚未进行承诺阶段" ↔
        (p._move = none ∨ p._salt = none)) ∧
    (∀ (p : Player) (c : Commitment),
      Player.reveal (Player.receive_commitment p c) = Player.reveal p) := by
  constructor
  · intro p
    obtain ⟨n, mo, so, co, oc⟩ := p
    cases mo <;> cases so <;> simp [Player.reveal]
  · intro p c
    rfl

/-- C9: a freshly constructed player cannot reveal — `reveal` fails with the
not-committed error — and after a successful commit, `reveal` returns exactly
the stored (move, salt) pair. -/
theorem reveal_sequencing (name : String) (H : Bytes → Bytes) (p : Player)
    (m : Move) (s : Bytes) :
    Player.reveal (Player.init name) = Except.error "尚未进行承诺阶段" ∧
    Player.reveal ((Player.commit p H m s).1) = Except.ok ⟨m, s⟩ :=
  ⟨rfl, rfl⟩

/-- C10: in an honestly driven round the failure branches are unreachable —
for every hash function, every pair of legal moves and every pair of salts
drawn during the two commits, `Game.play` reaches the adjudication stage
(Bob's reveal runs, no forfeiture result) and returns the verdict
`Move.beats` assigns to the two committed moves. -/
theorem play_honest_reaches_adjudication (H : Bytes → Bytes)
    (alice_name bob_name : String) (a b : Move) (salt_a salt_b : Bytes) :
    Game.play H alice_name bob_name a b salt_a salt_b =
      Except.ok ⟨(match Move.beats a b with
                  | none => none
                  | some true => some alice_name
                  | some false => some bob_name), true⟩ :=
  play_honest H alice_name bob_name a b salt_a salt_b
